import Mathlib

/-!
Verification of the account-lifecycle core of the user microservice
(`src/user_service/main.py`): registration, login, listing, lookup and
deletion of user accounts backed by a SQLite table with UNIQUE
constraints on `username` and `email`.

The embedding models the SQLite `users` table as a list of rows in
rowid (insertion) order together with the AUTOINCREMENT counter, and
each FastAPI endpoint as a pure function from the database state and
the request to an `Except HTTPError` result paired with the new state.
`hash_password` (SHA-256 hex digest of the UTF-8 encoded password) is
implemented in full.
-/

namespace UserService

/-! ## SHA-256 (`hashlib.sha256(...).hexdigest()` in `hash_password`) -/

/-- UTF-8 encoding of a single character, as byte values (what Python's
`str.encode()` produces per code point). -/
def utf8EncodeChar (c : Char) : List Nat :=
  let n := c.toNat
  if n < 0x80 then [n]
  else if n < 0x800 then
    [0xC0 ||| (n >>> 6), 0x80 ||| (n &&& 0x3F)]
  else if n < 0x10000 then
    [0xE0 ||| (n >>> 12), 0x80 ||| ((n >>> 6) &&& 0x3F), 0x80 ||| (n &&& 0x3F)]
  else
    [0xF0 ||| (n >>> 18), 0x80 ||| ((n >>> 12) &&& 0x3F),
     0x80 ||| ((n >>> 6) &&& 0x3F), 0x80 ||| (n &&& 0x3F)]

/-- UTF-8 bytes of a string (`password.encode()`). -/
def utf8Bytes (s : String) : List Nat :=
  (s.data.map utf8EncodeChar).flatten

/-- Right rotation of a 32-bit word held as a `Nat` reduced mod `2^32`. -/
def rotr (n x : Nat) : Nat :=
  ((x >>> n) ||| (x <<< (32 - n))) % 4294967296

/-- The 64 SHA-256 round constants. -/
def sha256K : List Nat :=
  [1116352408, 1899447441, 3049323471, 3921009573, 961987163,
   1508970993, 2453635748, 2870763221, 3624381080, 310598401,
   607225278, 1426881987, 1925078388, 2162078206, 2614888103,
   3248222580, 3835390401, 4022224774, 264347078, 604807628,
   770255983, 1249150122, 1555081692, 1996064986, 2554220882,
   2821834349, 2952996808, 3210313671, 3336571891, 3584528711,
   113926993, 338241895, 666307205, 773529912, 1294757372,
   1396182291, 1695183700, 1986661051, 2177026350, 2456956037,
   2730485921, 2820302411, 3259730800, 3345764771, 3516065817,
   3600352804, 4094571909, 275423344, 430227734, 506948616,
   659060556, 883997877, 958139571, 1322822218, 1537002063,
   1747873779, 1955562222, 2024104815, 2227730452, 2361852424,
   2428436474, 2756734187, 3204031479, 3329325298]

/-- SHA-256 initial hash state. -/
def sha256H0 : List Nat :=
  [1779033703, 3144134277, 1013904242, 2773480762,
   1359893119, 2600822924, 528734635, 1541459225]

/-- Big-endian byte decomposition, `k` bytes. -/
def bytesBE : Nat → Nat → List Nat
  | 0, _ => []
  | k + 1, n => bytesBE k (n / 256) ++ [n % 256]

/-- SHA-256 padding: append `0x80`, zero bytes, then the 64-bit
big-endian bit length, reaching a multiple of 64 bytes. -/
def sha256Pad (msg : List Nat) : List Nat :=
  msg ++ [0x80] ++ List.replicate ((119 - msg.length % 64) % 64) 0
      ++ bytesBE 8 (msg.length * 8)

/-- Group bytes into big-endian 32-bit words. -/
def wordsOfBytes : List Nat → List Nat
  | b0 :: b1 :: b2 :: b3 :: rest =>
    (((b0 * 256 + b1) * 256 + b2) * 256 + b3) :: wordsOfBytes rest
  | _ => []

/-- Split a word list into 16-word blocks (`k` = number of blocks). -/
def blocksGo : Nat → List Nat → List (List Nat)
  | 0, _ => []
  | k + 1, ws => ws.take 16 :: blocksGo k (ws.drop 16)

def blocks (ws : List Nat) : List (List Nat) :=
  blocksGo (ws.length / 16) ws

/-- Extend a 16-word block to the 64-word message schedule. -/
def msgSchedule (m : List Nat) : List Nat :=
  (List.range 48).foldl
    (fun w _ =>
      let n := w.length
      let w15 := w.getD (n - 15) 0
      let w2 := w.getD (n - 2) 0
      let s0 := rotr 7 w15 ^^^ rotr 18 w15 ^^^ (w15 >>> 3)
      let s1 := rotr 17 w2 ^^^ rotr 19 w2 ^^^ (w2 >>> 10)
      w ++ [(w.getD (n - 16) 0 + s0 + w.getD (n - 7) 0 + s1) % 4294967296])
    m

/-- The 64-round compression loop; `v = [a,b,c,d,e,f,g,h]`. -/
def compressLoop (w : List Nat) (v : List Nat) : List Nat :=
  (List.range 64).foldl
    (fun v i =>
      let a := v.getD 0 0
      let b := v.getD 1 0
      let c := v.getD 2 0
      let d := v.getD 3 0
      let e := v.getD 4 0
      let f := v.getD 5 0
      let g := v.getD 6 0
      let h := v.getD 7 0
      let s1 := rotr 6 e ^^^ rotr 11 e ^^^ rotr 25 e
      let ch := (e &&& f) ^^^ ((e ^^^ 0xFFFFFFFF) &&& g)
      let t1 := (h + s1 + ch + sha256K.getD i 0 + w.getD i 0) % 4294967296
      let s0 := rotr 2 a ^^^ rotr 13 a ^^^ rotr 22 a
      let maj := (a &&& b) ^^^ (a &&& c) ^^^ (b &&& c)
      let t2 := (s0 + maj) % 4294967296
      [(t1 + t2) % 4294967296, a, b, c, (d + t1) % 4294967296, e, f, g])
    v

/-- SHA-256 digest of a byte sequence, as eight 32-bit words. -/
def sha256Words (msg : List Nat) : List Nat :=
  (blocks (wordsOfBytes (sha256Pad msg))).foldl
    (fun hs block =>
      List.zipWith (fun x y => (x + y) % 4294967296) hs
        (compressLoop (msgSchedule block) hs))
    sha256H0

def hexDigit (n : Nat) : Char :=
  if n < 10 then Char.ofNat (48 + n) else Char.ofNat (87 + n)

/-- Lowercase hex rendering of a 32-bit word, 8 digits. -/
def hexWord (n : Nat) : String :=
  String.mk ((List.range 8).map (fun i => hexDigit ((n >>> ((7 - i) * 4)) &&& 15)))

/-- Password hashing `hash_password` (main.py lines 58-60): SHA-256 hex
digest of the UTF-8 encoded password. -/
def hash_password (password : String) : String :=
  String.join ((sha256Words (utf8Bytes password)).map hexWord)

/-! ## Data model

The SQLite `users` table (`init_db`, main.py lines 23-37):
`id INTEGER PRIMARY KEY AUTOINCREMENT, username TEXT UNIQUE NOT NULL,
email TEXT UNIQUE NOT NULL, password_hash TEXT NOT NULL,
created_at TEXT NOT NULL`.

A table scan without ORDER BY returns rows in rowid order; since
AUTOINCREMENT rowids only grow and inserts append, the table is
modelled as a list of rows in insertion order plus the AUTOINCREMENT
counter (`sqlite_sequence`), which never hands out a previously used
id, even after deletions. -/

structure UserRow where
  id : Nat
  username : String
  email : String
  password_hash : String
  created_at : String
deriving DecidableEq

structure DB where
  rows : List UserRow
  nextId : Nat
deriving DecidableEq

/-- The freshly initialised database: empty table, first AUTOINCREMENT
id will be 1. -/
def initDB : DB := ⟨[], 1⟩

/-- A FastAPI `HTTPException`: status code and detail string. -/
structure HTTPError where
  status_code : Nat
  detail : String
deriving DecidableEq

/-- Request body of POST /users/register (`UserCreate`). -/
structure UserCreate where
  username : String
  email : String
  password : String

/-- Response model `UserResponse` (main.py lines 47-51): note there is
no `password_hash` field. -/
structure UserResponse where
  id : Nat
  username : String
  email : String
  created_at : String
deriving DecidableEq

/-- Request body of POST /users/login (`UserLogin`). -/
structure UserLogin where
  username : String
  password : String

/-- Payload `user` object of a successful login response: id, username,
email only. -/
structure LoginUserView where
  id : Nat
  username : String
  email : String
deriving DecidableEq

/-- Successful login response: `{"message": ..., "user": {...}}`. -/
structure LoginResponse where
  message : String
  user : LoginUserView
deriving DecidableEq

/-- The row fields selected by `SELECT id, username, email, created_at`
(used by register, get_all_users and get_user). -/
def toResponse (r : UserRow) : UserResponse :=
  ⟨r.id, r.username, r.email, r.created_at⟩

/-! ## Endpoints

Each endpoint is a function `DB → request → Except HTTPError result × DB`;
the second component is the table state after the call (the connection
is closed on every path, and an uncommitted transaction rolls back). -/

/-- The duplicate pre-check `SELECT id FROM users WHERE username = ?
OR email = ?` (main.py lines 97-99) finds a row. -/
def existsDup (s : DB) (username email : String) : Bool :=
  s.rows.any (fun r => r.username == username || r.email == email)

/-- POST /users/register (`register_user`, main.py lines 80-129).
`now` is the external `datetime.utcnow().isoformat()` value.
Pre-check for an existing username or email, then hash, insert with the
next AUTOINCREMENT id, commit, and return the re-selected row's public
fields. -/
def register_user (s : DB) (u : UserCreate) (now : String) :
    Except HTTPError UserResponse × DB :=
  if existsDup s u.username u.email then
    (.error ⟨400, "Username or email already exists"⟩, s)
  else
    let row : UserRow := ⟨s.nextId, u.username, u.email, hash_password u.password, now⟩
    (.ok (toResponse row), ⟨s.rows ++ [row], s.nextId + 1⟩)

/-- The text of the `sqlite3.IntegrityError` raised when the INSERT
violates one of the UNIQUE constraints (username checked first, as it
precedes email in the schema). -/
def integrityMsg (s : DB) (username : String) : String :=
  if s.rows.any (fun r => r.username == username) then
    "UNIQUE constraint failed: users.username"
  else
    "UNIQUE constraint failed: users.email"

/-- Variant of `register_user` whose store state may change between the
pre-check (against `sPre`) and the INSERT (against `sIns`), modelling a
concurrent registration committed in between. If the INSERT hits a
UNIQUE constraint, sqlite3 raises `IntegrityError`, which is not an
`HTTPException`, so the handler at main.py lines 126-127 turns it into
`HTTPException(status_code=500, detail=str(e))`; the transaction is
rolled back. Running both phases on the same state recovers
`register_user` (`register_user_at_self` below). -/
def register_user_at (sPre sIns : DB) (u : UserCreate) (now : String) :
    Except HTTPError UserResponse × DB :=
  if existsDup sPre u.username u.email then
    (.error ⟨400, "Username or email already exists"⟩, sIns)
  else if existsDup sIns u.username u.email then
    (.error ⟨500, integrityMsg sIns u.username⟩, sIns)
  else
    let row : UserRow := ⟨sIns.nextId, u.username, u.email, hash_password u.password, now⟩
    (.ok (toResponse row), ⟨sIns.rows ++ [row], sIns.nextId + 1⟩)

/-- Path of `register_user` where the INSERT (after a passing
pre-check) raises an unexpected storage error whose `str(e)` is
`errText`: the `except Exception` handler at main.py lines 126-127
re-raises it as `HTTPException(status_code=500, detail=str(e))`, and
the uncommitted transaction rolls back. -/
def register_user_raising (s : DB) (u : UserCreate) (errText : String) :
    Except HTTPError UserResponse × DB :=
  if existsDup s u.username u.email then
    (.error ⟨400, "Username or email already exists"⟩, s)
  else
    (.error ⟨500, errText⟩, s)

/-- POST /users/login (`login_user`, main.py lines 132-168):
`SELECT id, username, email FROM users WHERE username = ? AND
password_hash = ?` with the hash of the supplied password; 401
"Invalid credentials" when no row matches. -/
def login_user (s : DB) (c : UserLogin) : Except HTTPError LoginResponse × DB :=
  match s.rows.find? (fun r =>
      r.username == c.username && r.password_hash == hash_password c.password) with
  | some r => (.ok ⟨"Login successful", ⟨r.id, r.username, r.email⟩⟩, s)
  | none => (.error ⟨401, "Invalid credentials"⟩, s)

/-- GET /users (`get_all_users`, main.py lines 171-196):
`SELECT id, username, email, created_at FROM users` — every row, in
rowid (insertion) order, rendered as `UserResponse`. -/
def get_all_users (s : DB) : List UserResponse × DB :=
  (s.rows.map toResponse, s)

/-- GET /users/:id (`get_user`, main.py lines 199-224). -/
def get_user (s : DB) (i : Nat) : Except HTTPError UserResponse × DB :=
  match s.rows.find? (fun r => r.id == i) with
  | some r => (.ok (toResponse r), s)
  | none => (.error ⟨404, "User not found"⟩, s)

/-- DELETE /users/:id (`delete_user`, main.py lines 227-248):
existence check first (404 if absent, nothing written), then
`DELETE FROM users WHERE id = ?` and commit. -/
def delete_user (s : DB) (i : Nat) : Except HTTPError String × DB :=
  if s.rows.any (fun r => r.id == i) then
    (.ok ("User " ++ toString i ++ " deleted successfully"),
     ⟨s.rows.filter (fun r => !(r.id == i)), s.nextId⟩)
  else
    (.error ⟨404, "User not found"⟩, s)

/-! ## Histories -/

/-- One service call. The `register` constructor carries the external
timestamp; `login`, `listAll` and `get` are read-only. -/
inductive Op where
  | register (u : UserCreate) (now : String)
  | login (c : UserLogin)
  | listAll
  | get (i : Nat)
  | delete (i : Nat)

/-- The state after one call. -/
def step (s : DB) : Op → DB
  | .register u now => (register_user s u now).2
  | .login c => (login_user s c).2
  | .listAll => (get_all_users s).2
  | .get i => (get_user s i).2
  | .delete i => (delete_user s i).2

/-- The state after a sequence of calls. -/
def run (ops : List Op) (s : DB) : DB := ops.foldl step s

/-- The ids handed out by the successful Register calls of a history,
in order. -/
def issuedIds (ops : List Op) (s : DB) : List Nat :=
  match ops with
  | [] => []
  | .register u now :: rest =>
    match register_user s u now with
    | (.ok resp, s') => resp.id :: issuedIds rest s'
    | (.error _, s') => issuedIds rest s'
  | op :: rest => issuedIds rest (step s op)

/-- No two live rows share a username or an email. -/
def Uniq (s : DB) : Prop :=
  s.rows.Pairwise (fun r1 r2 => r1.username ≠ r2.username ∧ r1.email ≠ r2.email)

/-- Replace every stored password hash by `f` of it, leaving all other
fields and the id counter alone. -/
def mapHash (f : String → String) (s : DB) : DB :=
  ⟨s.rows.map (fun r => { r with password_hash := f r.password_hash }), s.nextId⟩

/-! ## Basic lemmas about the endpoints -/

set_option maxRecDepth 10000 in
/-- SHA-256 sanity check against the FIPS 180 test vector for "abc". -/
theorem hash_password_abc :
    hash_password "abc" =
      "ba7816bf8f01cfea414140de5dae2223b00361a396177a9cb410ff61f20015ad" := by
  decide

theorem login_user_snd (s : DB) (c : UserLogin) : (login_user s c).2 = s := by
  unfold login_user
  split <;> rfl

theorem get_user_snd (s : DB) (i : Nat) : (get_user s i).2 = s := by
  unfold get_user
  split <;> rfl

theorem delete_user_rows_sublist (s : DB) (i : Nat) :
    ((delete_user s i).2).rows.Sublist s.rows := by
  unfold delete_user
  split
  · exact s.rows.filter_sublist
  · exact List.Sublist.refl _

theorem delete_user_nextId (s : DB) (i : Nat) : ((delete_user s i).2).nextId = s.nextId := by
  unfold delete_user
  split <;> rfl

theorem register_err (s : DB) (u : UserCreate) (now : String)
    (h : existsDup s u.username u.email = true) :
    register_user s u now = (.error ⟨400, "Username or email already exists"⟩, s) := by
  unfold register_user
  simp [h]

theorem register_ok (s : DB) (u : UserCreate) (now : String)
    (h : existsDup s u.username u.email = false) :
    register_user s u now =
      (.ok ⟨s.nextId, u.username, u.email, now⟩,
       ⟨s.rows ++ [⟨s.nextId, u.username, u.email, hash_password u.password, now⟩],
        s.nextId + 1⟩) := by
  unfold register_user
  simp [h, toResponse]

/-- Running both phases of the raced register on the same state is the
plain `register_user`. -/
theorem register_user_at_self (s : DB) (u : UserCreate) (now : String) :
    register_user_at s s u now = register_user s u now := by
  unfold register_user_at register_user
  cases h : existsDup s u.username u.email <;> simp [h]

/-- No row of `s` matches both the username and the hashed password of
`c` exactly when the login SELECT comes back empty. -/
theorem login_find_none_iff (s : DB) (c : UserLogin) :
    s.rows.find? (fun r =>
        r.username == c.username && r.password_hash == hash_password c.password) = none ↔
      ∀ r ∈ s.rows, ¬(r.username = c.username ∧ r.password_hash = hash_password c.password) := by
  rw [List.find?_eq_none]
  constructor
  · intro h r hr hc
    exact h r hr (by simp [hc.1, hc.2])
  · intro h r hr hb
    simp only [Bool.and_eq_true, beq_iff_eq] at hb
    exact h r hr hb

/-! ## C4 -/

/-- C4: `hash_password` is deterministic, and for every state and every
Login call, the call succeeds exactly when some live row has the
supplied username with stored `password_hash` equal to
`hash_password` of the supplied password; in every other case the
result is the 401 "Invalid credentials" error. -/
theorem login_succeeds_iff_stored_hash_matches :
    (∀ p, hash_password p = hash_password p) ∧
    (∀ (s : DB) (c : UserLogin),
      ((login_user s c).1.isOk = true ↔
        ∃ r ∈ s.rows,
          r.username = c.username ∧ r.password_hash = hash_password c.password)) ∧
    (∀ (s : DB) (c : UserLogin),
      (login_user s c).1.isOk = true ∨
        (login_user s c).1 = .error ⟨401, "Invalid credentials"⟩) := by
  refine ⟨fun _ => rfl, fun s c => ?_, fun s c => ?_⟩
  · unfold login_user
    cases h : s.rows.find? (fun r =>
        r.username == c.username && r.password_hash == hash_password c.password) with
    | none =>
        rw [login_find_none_iff] at h
        constructor
        · intro hf
          simp [Except.isOk, Except.toBool] at hf
        · rintro ⟨r, hr, hc⟩
          exact absurd hc (h r hr)
    | some r =>
        have hp := List.find?_some h
        simp only [Bool.and_eq_true, beq_iff_eq] at hp
        constructor
        · intro _
          exact ⟨r, List.mem_of_find?_eq_some h, hp⟩
        · intro _
          rfl
  · unfold login_user
    cases h : s.rows.find? (fun r =>
        r.username == c.username && r.password_hash == hash_password c.password) with
    | none => exact Or.inr rfl
    | some r => exact Or.inl rfl

/-! ## C6 -/

/-- C6: a Login that fails because the username is absent and a Login
that fails because the username exists but the password hash does not
match produce the very same caller-visible outcome, the 401
"Invalid credentials" error. -/
theorem login_failure_indistinguishable
    (s₁ : DB) (c₁ : UserLogin) (s₂ : DB) (c₂ : UserLogin)
    (h₁ : ∀ r ∈ s₁.rows, r.username ≠ c₁.username)
    (h₂ : ∃ r ∈ s₂.rows, r.username = c₂.username)
    (h₃ : ∀ r ∈ s₂.rows, r.username = c₂.username →
      r.password_hash ≠ hash_password c₂.password) :
    (login_user s₁ c₁).1 = .error ⟨401, "Invalid credentials"⟩ ∧
    (login_user s₂ c₂).1 = .error ⟨401, "Invalid credentials"⟩ ∧
    (login_user s₁ c₁).1 = (login_user s₂ c₂).1 := by
  have f₁ : s₁.rows.find? (fun r =>
      r.username == c₁.username && r.password_hash == hash_password c₁.password) = none := by
    rw [login_find_none_iff]
    exact fun r hr hc => h₁ r hr hc.1
  have f₂ : s₂.rows.find? (fun r =>
      r.username == c₂.username && r.password_hash == hash_password c₂.password) = none := by
    rw [login_find_none_iff]
    exact fun r hr hc => h₃ r hr hc.1 hc.2
  refine ⟨?_, ?_, ?_⟩
  · unfold login_user
    rw [f₁]
  · unfold login_user
    rw [f₂]
  · unfold login_user
    rw [f₁, f₂]

/-! ## C7 -/

/-- C7: when `DeleteAccount(i)` succeeds, `GetAccount(i)` on the state
it leaves behind returns the 404 "User not found" error. -/
theorem get_after_delete_not_found
    (s : DB) (i : Nat) (msg : String) (s' : DB)
    (h : delete_user s i = (.ok msg, s')) :
    (get_user s' i).1 = .error ⟨404, "User not found"⟩ := by
  unfold delete_user at h
  split at h
  case isTrue hx =>
    have hrows : s'.rows = s.rows.filter (fun r => !(r.id == i)) := by
      have := congrArg (fun p => (p.2).rows) h
      simpa using this.symm
    unfold get_user
    have : s'.rows.find? (fun r => r.id == i) = none := by
      rw [List.find?_eq_none]
      intro r hr
      rw [hrows] at hr
      have := List.of_mem_filter hr
      simpa using this
    rw [this]
  case isFalse hx => simp at h

set_option maxRecDepth 10000 in
/-- A successful login at a concrete state, via
`login_succeeds_iff_stored_hash_matches`. -/
theorem login_succeeds_iff_stored_hash_matches_witness :
    (login_user ⟨[⟨1, "bob", "b@y.com", hash_password "secret", "t"⟩], 2⟩
      ⟨"bob", "secret"⟩).1.isOk = true :=
  (login_succeeds_iff_stored_hash_matches.2.1 _ _).mpr
    ⟨⟨1, "bob", "b@y.com", hash_password "secret", "t"⟩, by simp, rfl, rfl⟩

set_option maxRecDepth 10000 in
/-- The two login-failure causes at concrete states: unknown username
versus wrong password, same outcome. -/
theorem login_failure_indistinguishable_witness :
    (login_user ⟨[], 1⟩ ⟨"carol", "x"⟩).1 = .error ⟨401, "Invalid credentials"⟩ ∧
    (login_user ⟨[⟨1, "bob", "b@y.com", "stored", "t"⟩], 2⟩ ⟨"bob", "pw"⟩).1 =
      .error ⟨401, "Invalid credentials"⟩ ∧
    (login_user ⟨[], 1⟩ ⟨"carol", "x"⟩).1 =
      (login_user ⟨[⟨1, "bob", "b@y.com", "stored", "t"⟩], 2⟩ ⟨"bob", "pw"⟩).1 :=
  login_failure_indistinguishable ⟨[], 1⟩ ⟨"carol", "x"⟩
    ⟨[⟨1, "bob", "b@y.com", "stored", "t"⟩], 2⟩ ⟨"bob", "pw"⟩
    (by simp) (by simp) (by decide)

/-- Deleting the only account and then fetching it, concretely. -/
theorem get_after_delete_not_found_witness :
    (get_user ⟨[], 2⟩ 1).1 = .error ⟨404, "User not found"⟩ :=
  get_after_delete_not_found ⟨[⟨1, "alice", "a@x.com", "h", "t"⟩], 2⟩ 1
    "User 1 deleted successfully" ⟨[], 2⟩ rfl

/-! ## C3: uniqueness -/

theorem uniq_step (s : DB) (op : Op) (h : Uniq s) : Uniq (step s op) := by
  cases op with
  | register u now =>
      cases hd : existsDup s u.username u.email with
      | true =>
          simp only [step, register_err s u now hd]
          exact h
      | false =>
          simp only [step, register_ok s u now hd]
          unfold Uniq at h ⊢
          rw [List.pairwise_append]
          refine ⟨h, by simp, ?_⟩
          intro a ha b hb
          have hne := List.any_eq_false.mp hd a ha
          simp only [Bool.or_eq_true, beq_iff_eq, not_or] at hne
          simp only [List.mem_singleton] at hb
          subst hb
          exact hne
  | login c =>
      simp only [step, login_user_snd]
      exact h
  | listAll => exact h
  | get i =>
      simp only [step, get_user_snd]
      exact h
  | delete i =>
      exact List.Pairwise.sublist (delete_user_rows_sublist s i) h

theorem uniq_run (ops : List Op) (s : DB) (h : Uniq s) : Uniq (run ops s) := by
  induction ops generalizing s with
  | nil => exact h
  | cons op rest ih => exact ih (step s op) (uniq_step s op h)

/-- C3: every state reachable from the fresh database keeps usernames
and emails pairwise distinct; a second Register with the same username
or email right after a successful one is rejected with the 400
duplicate error; and a raced Register whose INSERT-time state already
holds the username or email never succeeds. -/
theorem uniqueness_invariant_and_at_most_one_registration :
    (∀ ops : List Op, Uniq (run ops initDB)) ∧
    (∀ (s : DB) (u₁ : UserCreate) (now₁ : String) (r₁ : UserResponse) (s₁ : DB)
       (u₂ : UserCreate) (now₂ : String),
      register_user s u₁ now₁ = (.ok r₁, s₁) →
      (u₂.username = u₁.username ∨ u₂.email = u₁.email) →
      (register_user s₁ u₂ now₂).1 = .error ⟨400, "Username or email already exists"⟩) ∧
    (∀ (sPre sIns : DB) (u : UserCreate) (now : String),
      (∃ r ∈ sIns.rows, r.username = u.username ∨ r.email = u.email) →
      ((register_user_at sPre sIns u now).1).isOk = false) := by
  refine ⟨fun ops => uniq_run ops initDB (by simp [Uniq, initDB]), ?_, ?_⟩
  · intro s u₁ now₁ r₁ s₁ u₂ now₂ h hsame
    cases hd : existsDup s u₁.username u₁.email with
    | true =>
        rw [register_err s u₁ now₁ hd] at h
        exact absurd (congrArg Prod.fst h) (by simp)
    | false =>
        rw [register_ok s u₁ now₁ hd] at h
        have hs₁ : s₁ = ⟨s.rows ++
            [⟨s.nextId, u₁.username, u₁.email, hash_password u₁.password, now₁⟩],
            s.nextId + 1⟩ := by
          have := congrArg Prod.snd h
          exact this.symm
        have hdup : existsDup s₁ u₂.username u₂.email = true := by
          rw [hs₁]
          unfold existsDup
          rw [List.any_eq_true]
          refine ⟨⟨s.nextId, u₁.username, u₁.email, hash_password u₁.password, now₁⟩,
            by simp, ?_⟩
          rcases hsame with hu | he
          · simp [hu]
          · simp [he]
        rw [register_err s₁ u₂ now₂ hdup]
  · intro sPre sIns u now hmem
    have hdup : existsDup sIns u.username u.email = true := by
      unfold existsDup
      rw [List.any_eq_true]
      obtain ⟨r, hr, hor⟩ := hmem
      refine ⟨r, hr, ?_⟩
      rcases hor with hu | he
      · simp [hu]
      · simp [he]
    unfold register_user_at
    cases hPre : existsDup sPre u.username u.email <;>
      simp [hPre, hdup, Except.isOk, Except.toBool]

/-- Concrete duplicate rejections: sequentially after a successful
registration of "alice", and raced against a committed "alice" row. -/
theorem uniqueness_witness :
    (register_user ⟨[⟨1, "alice", "a@x.com", hash_password "p", "t"⟩], 2⟩
        ⟨"alice", "b@x.com", "q"⟩ "t2").1 =
      .error ⟨400, "Username or email already exists"⟩ ∧
    ((register_user_at initDB ⟨[⟨1, "alice", "a@x.com", "h", "t"⟩], 2⟩
        ⟨"alice", "c@x.com", "p2"⟩ "t3").1).isOk = false :=
  ⟨(uniqueness_invariant_and_at_most_one_registration.2.1 initDB
      ⟨"alice", "a@x.com", "p"⟩ "t" ⟨1, "alice", "a@x.com", "t"⟩
      ⟨[⟨1, "alice", "a@x.com", hash_password "p", "t"⟩], 2⟩
      ⟨"alice", "b@x.com", "q"⟩ "t2" rfl (Or.inl rfl)),
   (uniqueness_invariant_and_at_most_one_registration.2.2 initDB
      ⟨[⟨1, "alice", "a@x.com", "h", "t"⟩], 2⟩ ⟨"alice", "c@x.com", "p2"⟩ "t3"
      ⟨⟨1, "alice", "a@x.com", "h", "t"⟩, by simp, Or.inl rfl⟩)⟩

/-! ## C1: insert-time uniqueness conflict -/

theorem error_ne_of_status {α : Type} {e₁ e₂ : HTTPError}
    (h : e₁.status_code ≠ e₂.status_code) :
    (Except.error e₁ : Except HTTPError α) ≠ .error e₂ := by
  intro hc
  injection hc with h'
  exact h (congrArg HTTPError.status_code h')

theorem error_ne_of_detail {α : Type} {e₁ e₂ : HTTPError}
    (h : e₁.detail ≠ e₂.detail) :
    (Except.error e₁ : Except HTTPError α) ≠ .error e₂ := by
  intro hc
  injection hc with h'
  exact h (congrArg HTTPError.detail h')

/-- C1 (amended): when the pre-check passes but the INSERT hits the
UNIQUE constraint, the call fails with the 500 internal outcome
carrying the IntegrityError text — not with the 400 duplicate
outcome, which only the pre-check produces. -/
theorem race_conflict_yields_500 :
    ∀ (sPre sIns : DB) (u : UserCreate) (now : String),
      existsDup sPre u.username u.email = false →
      existsDup sIns u.username u.email = true →
      register_user_at sPre sIns u now =
        (.error ⟨500, integrityMsg sIns u.username⟩, sIns) ∧
      (register_user_at sPre sIns u now).1 ≠
        .error ⟨400, "Username or email already exists"⟩ := by
  intro sPre sIns u now h1 h2
  have he : register_user_at sPre sIns u now =
      (.error ⟨500, integrityMsg sIns u.username⟩, sIns) := by
    unfold register_user_at
    simp [h1, h2]
  refine ⟨he, ?_⟩
  rw [he]
  exact error_ne_of_status (by simp)

/-- C1 counterexample: pre-check against an empty table, INSERT after
a concurrent "alice" registration has committed — the outcome is the
500 IntegrityError result, not the 400 duplicate result the claim
demands. -/
theorem race_conflict_counterexample :
    existsDup initDB "alice" "a@x.com" = false ∧
    existsDup ⟨[⟨1, "alice", "a@x.com", "h1", "t0"⟩], 2⟩ "alice" "a@x.com" = true ∧
    (register_user_at initDB ⟨[⟨1, "alice", "a@x.com", "h1", "t0"⟩], 2⟩
        ⟨"alice", "a@x.com", "pw"⟩ "t1").1 =
      .error ⟨500, "UNIQUE constraint failed: users.username"⟩ ∧
    (register_user_at initDB ⟨[⟨1, "alice", "a@x.com", "h1", "t0"⟩], 2⟩
        ⟨"alice", "a@x.com", "pw"⟩ "t1").1 ≠
      .error ⟨400, "Username or email already exists"⟩ :=
  ⟨rfl, rfl, rfl, error_ne_of_status (by decide)⟩

/-- The C1 race at a concrete pair of states, via
`race_conflict_yields_500`. -/
theorem race_conflict_yields_500_witness :
    register_user_at initDB ⟨[⟨2, "bob", "b@y.com", "h2", "t0"⟩], 3⟩
        ⟨"bob", "bob@z.com", "pw"⟩ "t1" =
      (.error ⟨500, integrityMsg ⟨[⟨2, "bob", "b@y.com", "h2", "t0"⟩], 3⟩ "bob"⟩,
       ⟨[⟨2, "bob", "b@y.com", "h2", "t0"⟩], 3⟩) ∧
    (register_user_at initDB ⟨[⟨2, "bob", "b@y.com", "h2", "t0"⟩], 3⟩
        ⟨"bob", "bob@z.com", "pw"⟩ "t1").1 ≠
      .error ⟨400, "Username or email already exists"⟩ :=
  race_conflict_yields_500 initDB ⟨[⟨2, "bob", "b@y.com", "h2", "t0"⟩], 3⟩
    ⟨"bob", "bob@z.com", "pw"⟩ "t1" rfl rfl

/-! ## C2: unexpected storage errors -/

/-- C2 (amended): an unexpected storage error with text `errText`
raised after a passing pre-check is surfaced as the 500 outcome whose
caller-visible detail is exactly `errText` — the internal exception
text is leaked, not replaced by a generic message; the table is left
unchanged. -/
theorem storage_error_leaks_detail :
    ∀ (s : DB) (u : UserCreate) (errText : String),
      existsDup s u.username u.email = false →
      register_user_raising s u errText = (.error ⟨500, errText⟩, s) := by
  intro s u t h
  unfold register_user_raising
  simp [h]

/-- C2 counterexample: the caller-visible detail equals the raw
exception text and changes when that text changes, so the message is
neither generic nor free of internal detail. -/
theorem storage_error_counterexample :
    (register_user_raising initDB ⟨"alice", "a@x.com", "pw"⟩ "disk I/O error").1 =
      .error ⟨500, "disk I/O error"⟩ ∧
    (register_user_raising initDB ⟨"alice", "a@x.com", "pw"⟩ "disk I/O error").1 ≠
      (register_user_raising initDB ⟨"alice", "a@x.com", "pw"⟩
        "database is locked").1 :=
  ⟨rfl, error_ne_of_detail (by decide)⟩

/-- A concrete unexpected-storage-error outcome, via
`storage_error_leaks_detail`. -/
theorem storage_error_leaks_detail_witness :
    register_user_raising initDB ⟨"alice", "a@x.com", "pw"⟩
        "no such table: users" =
      (.error ⟨500, "no such table: users"⟩, initDB) :=
  storage_error_leaks_detail initDB ⟨"alice", "a@x.com", "pw"⟩
    "no such table: users" rfl

/-! ## C5: password hashes never leave the service -/

theorem any_mapHash (f : String → String) (l : List UserRow) (p : UserRow → Bool)
    (hp : ∀ r, p { r with password_hash := f r.password_hash } = p r) :
    (l.map (fun r => { r with password_hash := f r.password_hash })).any p = l.any p := by
  induction l with
  | nil => rfl
  | cons a l ih => simp [List.any_cons, hp, ih]

theorem find?_mapHash_id (f : String → String) (l : List UserRow) (i : Nat) :
    (l.map (fun r => { r with password_hash := f r.password_hash })).find?
        (fun r => r.id == i) =
      (l.find? (fun r => r.id == i)).map
        (fun r => { r with password_hash := f r.password_hash }) := by
  induction l with
  | nil => rfl
  | cons a l ih =>
      simp only [List.map_cons, List.find?_cons]
      cases hpa : (a.id == i) with
      | true => simp [hpa]
      | false => simp [hpa, ih]

/-- C5: every caller-visible output is independent of the stored
password hashes — Register, ListAccounts, GetAccount and DeleteAccount
return the same result after the stored hashes are rewritten
arbitrarily — and a successful Login payload consists of the id,
username and email of a stored row only. -/
theorem outputs_never_contain_password_hash :
    ∀ (f : String → String) (s : DB),
      (get_all_users (mapHash f s)).1 = (get_all_users s).1 ∧
      (∀ i, (get_user (mapHash f s) i).1 = (get_user s i).1) ∧
      (∀ (u : UserCreate) (now : String),
        (register_user (mapHash f s) u now).1 = (register_user s u now).1) ∧
      (∀ i, (delete_user (mapHash f s) i).1 = (delete_user s i).1) ∧
      (∀ (c : UserLogin) (r : LoginResponse), (login_user s c).1 = .ok r →
        ∃ row ∈ s.rows,
          r = ⟨"Login successful", ⟨row.id, row.username, row.email⟩⟩) := by
  intro f s
  refine ⟨?_, ?_, ?_, ?_, ?_⟩
  · unfold get_all_users mapHash
    simp only [List.map_map]
    rfl
  · intro i
    unfold get_user mapHash
    rw [find?_mapHash_id]
    cases h : s.rows.find? (fun r => r.id == i) <;> rfl
  · intro u now
    have hd : existsDup (mapHash f s) u.username u.email =
        existsDup s u.username u.email := by
      unfold existsDup mapHash
      exact any_mapHash f s.rows _ (fun r => rfl)
    cases hd2 : existsDup s u.username u.email with
    | false =>
        rw [register_ok _ u now (by rw [hd, hd2]), register_ok s u now hd2]
        rfl
    | true =>
        rw [register_err _ u now (by rw [hd, hd2]), register_err s u now hd2]
  · intro i
    have hd : (mapHash f s).rows.any (fun r => r.id == i) =
        s.rows.any (fun r => r.id == i) := by
      unfold mapHash
      exact any_mapHash f s.rows _ (fun r => rfl)
    unfold delete_user
    rw [hd]
    cases hb : s.rows.any (fun r => r.id == i) <;> simp [hb]
  · intro c r h
    unfold login_user at h
    cases hf : s.rows.find? (fun row =>
        row.username == c.username &&
        row.password_hash == hash_password c.password) with
    | none =>
        rw [hf] at h
        exact Except.noConfusion h
    | some row =>
        rw [hf] at h
        exact ⟨row, List.mem_of_find?_eq_some hf, (Except.ok.inj h).symm⟩

set_option maxRecDepth 10000 in
/-- Concrete instance of `outputs_never_contain_password_hash`,
including a successful login whose payload is hash-free. -/
theorem outputs_never_contain_password_hash_witness :
    (get_all_users (mapHash (fun _ => "X")
        ⟨[⟨1, "bob", "b@y.com", hash_password "secret", "t"⟩], 2⟩)).1 =
      (get_all_users ⟨[⟨1, "bob", "b@y.com", hash_password "secret", "t"⟩], 2⟩).1 ∧
    ∃ row ∈ (⟨[⟨1, "bob", "b@y.com", hash_password "secret", "t"⟩], 2⟩ : DB).rows,
      (⟨"Login successful", ⟨1, "bob", "b@y.com"⟩⟩ : LoginResponse) =
        ⟨"Login successful", ⟨row.id, row.username, row.email⟩⟩ :=
  ⟨(outputs_never_contain_password_hash (fun _ => "X")
      ⟨[⟨1, "bob", "b@y.com", hash_password "secret", "t"⟩], 2⟩).1,
   (outputs_never_contain_password_hash (fun _ => "X")
      ⟨[⟨1, "bob", "b@y.com", hash_password "secret", "t"⟩], 2⟩).2.2.2.2
      ⟨"bob", "secret"⟩ ⟨"Login successful", ⟨1, "bob", "b@y.com"⟩⟩ rfl⟩

/-! ## C8: listing -/

/-- C8: ListAccounts returns the public views of exactly the stored
rows in table (insertion) order; a successful Register appends its
view at the end; a successful Delete removes entries while keeping the
relative order of the rest; Login and GetAccount leave the listing
unchanged. -/
theorem list_returns_all_in_insertion_order :
    (∀ s : DB, (get_all_users s).1 = s.rows.map toResponse) ∧
    (∀ (s : DB) (u : UserCreate) (now : String) (r : UserResponse) (s' : DB),
      register_user s u now = (.ok r, s') →
      (get_all_users s').1 = (get_all_users s).1 ++ [r]) ∧
    (∀ (s : DB) (i : Nat) (msg : String) (s' : DB),
      delete_user s i = (.ok msg, s') →
      ((get_all_users s').1).Sublist (get_all_users s).1) ∧
    (∀ (s : DB) (c : UserLogin), get_all_users ((login_user s c).2) = get_all_users s) ∧
    (∀ (s : DB) (i : Nat), get_all_users ((get_user s i).2) = get_all_users s) := by
  refine ⟨fun s => rfl, ?_, ?_, ?_, ?_⟩
  · intro s u now r s' h
    cases hd : existsDup s u.username u.email with
    | true =>
        rw [register_err s u now hd] at h
        exact absurd (congrArg Prod.fst h) (by simp)
    | false =>
        rw [register_ok s u now hd] at h
        have hr : r = ⟨s.nextId, u.username, u.email, now⟩ :=
          (Except.ok.inj (congrArg Prod.fst h)).symm
        have hs : s' = ⟨s.rows ++
            [⟨s.nextId, u.username, u.email, hash_password u.password, now⟩],
            s.nextId + 1⟩ := (congrArg Prod.snd h).symm
        subst hr hs
        unfold get_all_users
        simp [toResponse]
  · intro s i msg s' h
    unfold delete_user at h
    split at h
    case isTrue hx =>
      have hs : s'.rows = s.rows.filter (fun r => !(r.id == i)) :=
        (congrArg (fun p => (p.2).rows) h).symm
      unfold get_all_users
      rw [hs]
      exact List.Sublist.map toResponse (s.rows.filter_sublist)
    case isFalse hx => exact Except.noConfusion (congrArg Prod.fst h)
  · intro s c
    rw [login_user_snd]
  · intro s i
    rw [get_user_snd]

set_option maxRecDepth 10000 in
/-- The spec's listing scenario concretely: two successful
registrations, listed in creation order, via
`list_returns_all_in_insertion_order`. -/
theorem list_returns_all_in_insertion_order_witness :
    (get_all_users ⟨[⟨1, "alice", "a@x.com", hash_password "p", "t1"⟩,
        ⟨2, "bob", "b@y.com", hash_password "q", "t2"⟩], 3⟩).1 =
      (get_all_users ⟨[⟨1, "alice", "a@x.com", hash_password "p", "t1"⟩], 2⟩).1 ++
        [⟨2, "bob", "b@y.com", "t2"⟩] :=
  list_returns_all_in_insertion_order.2.1
    ⟨[⟨1, "alice", "a@x.com", hash_password "p", "t1"⟩], 2⟩
    ⟨"bob", "b@y.com", "q"⟩ "t2" ⟨2, "bob", "b@y.com", "t2"⟩
    ⟨[⟨1, "alice", "a@x.com", hash_password "p", "t1"⟩,
      ⟨2, "bob", "b@y.com", hash_password "q", "t2"⟩], 3⟩ rfl

/-! ## C9, C10: histories and issued ids -/

theorem nextId_mono_step (s : DB) (op : Op) : s.nextId ≤ (step s op).nextId := by
  cases op with
  | register u now =>
      cases hd : existsDup s u.username u.email with
      | true => simp [step, register_err s u now hd]
      | false => simp [step, register_ok s u now hd]
  | login c => simp [step, login_user_snd]
  | listAll => exact le_refl _
  | get i => simp [step, get_user_snd]
  | delete i => simp [step, delete_user_nextId]

/-- What one call contributes to the issued-id list: nothing, or the
current AUTOINCREMENT value (in which case the counter advances). -/
theorem issuedIds_single_cases (op : Op) (s : DB) :
    issuedIds [op] s = [] ∨
    (issuedIds [op] s = [s.nextId] ∧ (step s op).nextId = s.nextId + 1) := by
  cases op with
  | register u now =>
      cases hd : existsDup s u.username u.email with
      | true => left; simp [issuedIds, register_err s u now hd]
      | false =>
          right
          constructor
          · simp [issuedIds, register_ok s u now hd]
          · simp [step, register_ok s u now hd]
  | login c => left; simp [issuedIds]
  | listAll => left; simp [issuedIds]
  | get i => left; simp [issuedIds]
  | delete i => left; simp [issuedIds]

/-- Splitting a history's issued ids at its first call. -/
theorem issuedIds_cons (op : Op) (rest : List Op) (s : DB) :
    issuedIds (op :: rest) s = issuedIds [op] s ++ issuedIds rest (step s op) := by
  cases op with
  | register u now =>
      cases hd : existsDup s u.username u.email with
      | true => simp [issuedIds, step, register_err s u now hd]
      | false => simp [issuedIds, step, register_ok s u now hd]
  | login c => simp [issuedIds]
  | listAll => simp [issuedIds]
  | get i => simp [issuedIds]
  | delete i => simp [issuedIds]

theorem issuedIds_single (op : Op) (s : DB) (i : Nat)
    (h : i ∈ issuedIds [op] s) : i = s.nextId := by
  rcases issuedIds_single_cases op s with he | ⟨he, _⟩ <;> rw [he] at h
  · cases h
  · simpa using h

theorem issued_ge (ops : List Op) (s : DB) :
    ∀ i ∈ issuedIds ops s, s.nextId ≤ i := by
  induction ops generalizing s with
  | nil => intro i hi; cases hi
  | cons op rest ih =>
      intro i hi
      rw [issuedIds_cons] at hi
      rcases List.mem_append.mp hi with h1 | h2
      · exact le_of_eq (issuedIds_single op s i h1).symm
      · exact le_trans (nextId_mono_step s op) (ih (step s op) i h2)

/-- Every row present after one call was present before it, or carries
the id that call issued. -/
theorem step_mem_rows (s : DB) (op : Op) (r : UserRow)
    (h : r ∈ (step s op).rows) :
    r ∈ s.rows ∨ r.id ∈ issuedIds [op] s := by
  cases op with
  | register u now =>
      cases hd : existsDup s u.username u.email with
      | true =>
          rw [show step s (Op.register u now) = s by
            simp [step, register_err s u now hd]] at h
          exact Or.inl h
      | false =>
          rw [show (step s (Op.register u now)).rows = s.rows ++
              [⟨s.nextId, u.username, u.email, hash_password u.password, now⟩] by
            simp [step, register_ok s u now hd]] at h
          rcases List.mem_append.mp h with h1 | h2
          · exact Or.inl h1
          · right
            have hr : r = ⟨s.nextId, u.username, u.email,
                hash_password u.password, now⟩ := by simpa using h2
            rw [show issuedIds [Op.register u now] s = [s.nextId] by
              simp [issuedIds, register_ok s u now hd]]
            simp [hr]
  | login c =>
      rw [show step s (Op.login c) = s by simp [step, login_user_snd]] at h
      exact Or.inl h
  | listAll => exact Or.inl h
  | get i =>
      rw [show step s (Op.get i) = s by simp [step, get_user_snd]] at h
      exact Or.inl h
  | delete i =>
      exact Or.inl ((delete_user_rows_sublist s i).subset h)

/-- Every row id live after a history either was live at its start or
was issued by one of its successful Register calls. -/
theorem run_ids (ops : List Op) (s : DB) (r : UserRow)
    (h : r ∈ (run ops s).rows) :
    (∃ r₀ ∈ s.rows, r₀.id = r.id) ∨ r.id ∈ issuedIds ops s := by
  induction ops generalizing s with
  | nil => exact Or.inl ⟨r, h, rfl⟩
  | cons op rest ih =>
      rcases ih (step s op) h with ⟨r₀, hr₀, hid⟩ | hR
      · rcases step_mem_rows s op r₀ hr₀ with hs | hi
        · exact Or.inl ⟨r₀, hs, hid⟩
        · right
          rw [issuedIds_cons]
          exact List.mem_append.mpr (Or.inl (hid ▸ hi))
      · right
        rw [issuedIds_cons]
        exact List.mem_append.mpr (Or.inr hR)

/-- C9: for an id never issued by any successful Register of the
history, GetAccount answers 404 "User not found" and DeleteAccount
answers the same, and both leave the state exactly as it was. -/
theorem never_issued_get_delete_not_found :
    ∀ (ops : List Op) (i : Nat), i ∉ issuedIds ops initDB →
      get_user (run ops initDB) i =
        (.error ⟨404, "User not found"⟩, run ops initDB) ∧
      delete_user (run ops initDB) i =
        (.error ⟨404, "User not found"⟩, run ops initDB) := by
  intro ops i hni
  have hno : ∀ r ∈ (run ops initDB).rows, ¬(r.id == i) = true := by
    intro r hr
    rcases run_ids ops initDB r hr with ⟨r₀, hr₀, _⟩ | hR
    · cases hr₀
    · intro hc
      rw [beq_iff_eq] at hc
      exact hni (hc ▸ hR)
  constructor
  · unfold get_user
    rw [List.find?_eq_none.mpr hno]
  · unfold delete_user
    rw [show (run ops initDB).rows.any (fun r => r.id == i) = false from
      List.any_eq_false.mpr hno]
    rfl

set_option maxRecDepth 10000 in
/-- C9 at a concrete history: after registering "alice" (id 1), the
never-issued id 5 is not found by either call. -/
theorem never_issued_get_delete_not_found_witness :
    get_user (run [Op.register ⟨"alice", "a@x.com", "p"⟩ "t"] initDB) 5 =
      (.error ⟨404, "User not found"⟩,
       run [Op.register ⟨"alice", "a@x.com", "p"⟩ "t"] initDB) ∧
    delete_user (run [Op.register ⟨"alice", "a@x.com", "p"⟩ "t"] initDB) 5 =
      (.error ⟨404, "User not found"⟩,
       run [Op.register ⟨"alice", "a@x.com", "p"⟩ "t"] initDB) :=
  never_issued_get_delete_not_found
    [Op.register ⟨"alice", "a@x.com", "p"⟩ "t"] 5 (by decide)

/-- C10: along any history, from any starting state, the ids issued by
successive successful Register calls strictly increase — an id is
never reused, even after the account holding it is deleted. -/
theorem issued_ids_strictly_increase :
    ∀ (ops : List Op) (s : DB), List.Pairwise (· < ·) (issuedIds ops s) := by
  intro ops
  induction ops with
  | nil => intro s; exact List.Pairwise.nil
  | cons op rest ih =>
      intro s
      rw [issuedIds_cons, List.pairwise_append]
      refine ⟨?_, ih (step s op), ?_⟩
      · rcases issuedIds_single_cases op s with h | ⟨h, _⟩ <;> rw [h] <;> simp
      · intro a ha b hb
        rcases issuedIds_single_cases op s with h | ⟨h, hn⟩
        · rw [h] at ha
          cases ha
        · rw [h] at ha
          have ha' : a = s.nextId := by simpa using ha
          have hb' := issued_ge rest (step s op) b hb
          rw [hn] at hb'
          omega

end UserService
